import Mathlib

/-!
Shallow embedding of the MWC Barcelona 2025 attendee scraper
(`src/mwc_scraper.py`) for verifying the repository specification.

The browser driver (playwright) is external: every page interaction is
modelled by an environment value describing the outcome the driver would
produce (a returned value, or a raised exception carried as a `String`
message inside `Except`).  File writes are modelled as pure list appends,
and the filesystem as the list of names of existing files.  All text
handling is over the ASCII fragment the configuration files use:
`Char.toLower` / `Char.isAlphanum` are the ASCII counterparts of Python's
`str.lower` / `str.isalnum`.
-/

namespace MWC

/-! ### Filename allocator (`generate_output_filename`, lines 23-63) -/

/-- Line 33 / 39 / 48: keep alphanumerics and spaces, everything else
becomes a hyphen. -/
def slugChar (c : Char) : Char :=
  if c.isAlphanum ∨ c = ' ' then c else '-'

/-- Line 34 / 40 / 49: `.replace(' ', '-')` on a one-character pattern is a
character-wise map. -/
def spaceToHyphen (c : Char) : Char :=
  if c = ' ' then '-' else c

/-- Lines 32-34 composed character-wise: lowercase, slug, then replace
spaces by hyphens. -/
def cleanChar (c : Char) : Char :=
  spaceToHyphen (slugChar c.toLower)

/-- Denotation of the `while '--' in s: s = s.replace('--', '-')` loop
(lines 42-43 and 51-52): every run of consecutive hyphens is collapsed to a
single hyphen. -/
def collapseHyphens : List Char → List Char
  | [] => []
  | [c] => [c]
  | c :: d :: rest =>
    if c = '-' ∧ d = '-' then collapseHyphens (d :: rest)
    else c :: collapseHyphens (d :: rest)

/-- Lines 31-35: cleaning applied to the attendee-name component.  Note the
source performs no hyphen collapsing here. -/
def clean_name (s : String) : String :=
  ⟨(s.data.map cleanChar)⟩

/-- Lines 37-44: cleaning applied to the interest component, including the
hyphen-collapsing loop. -/
def clean_interest (s : String) : String :=
  ⟨collapseHyphens (s.data.map cleanChar)⟩

/-- Lines 46-53: cleaning applied to the company-activity component; the
source duplicates the interest-cleaning code verbatim. -/
def clean_activity (s : String) : String :=
  ⟨collapseHyphens (s.data.map cleanChar)⟩

/-- Detects two consecutive hyphens anywhere in a character list (the
Python loop guard `'--' in s`). -/
def hasDoubleHyphenChars : List Char → Bool
  | [] => false
  | [_] => false
  | c :: d :: rest =>
    if c = '-' ∧ d = '-' then true else hasDoubleHyphenChars (d :: rest)

/-- String view of `hasDoubleHyphenChars`. -/
def hasConsecutiveHyphens (s : String) : Bool :=
  hasDoubleHyphenChars s.data

/-- Lines 25-55: the base token.  Absent parameters are modelled as the
empty string (Python `None` and `""` are both falsy in every test the
source performs on these parameters). -/
def buildBaseName (attendee_name interest company_activity : String) : String :=
  if attendee_name = "" ∧ interest = "" ∧ company_activity = "" then
    "mwc_barcelona_2025_attendees"
  else
    String.intercalate "-"
      ((if attendee_name = "" then [] else [clean_name attendee_name]) ++
       (if interest = "" then [] else [clean_interest interest]) ++
       (if company_activity = "" then [] else [clean_activity company_activity]))

/-- Line 60: the probed candidate name for a given counter.  Python's
f-string renders the counter in decimal, i.e. `Nat.repr`. -/
def filenameFor (base : String) (counter : Nat) : String :=
  base ++ "-" ++ Nat.repr counter ++ ".csv"

/-- Lines 58-63: the probing loop.  The source loop is unbounded; it is
embedded with explicit fuel, and `fs.length + 1` probes are proved
sufficient below (`findAvailable_not_mem_of_exists`, `exists_free_counter`). -/
def findAvailable (base : String) (fs : List String) : Nat → Nat → String
  | 0, counter => filenameFor base counter
  | fuel + 1, counter =>
    if filenameFor base counter ∈ fs then findAvailable base fs fuel (counter + 1)
    else filenameFor base counter

/-- Lines 23-63: the allocator.  `fs` is the list of existing file names. -/
def generate_output_filename (attendee_name interest company_activity : String)
    (fs : List String) : String :=
  findAvailable (buildBaseName attendee_name interest company_activity) fs
    (fs.length + 1) 1

/-- Decimal digit list of a natural number, most significant first; used
only to reason about `Nat.repr` inside `filenameFor`. -/
def myDigits (n : Nat) : List Char :=
  if _h : n < 10 then [Nat.digitChar n]
  else myDigits (n / 10) ++ [Nat.digitChar (n % 10)]
decreasing_by
  exact Nat.div_lt_self (by omega) (by omega)

/-! ### Filter setters (`set_search_filter` lines 97-137,
`select_interest_filter` lines 139-183,
`select_company_activity_filter` lines 185-229) -/

/-- Driver outcomes for the search-bar interaction of `set_search_filter`.
Each field is one awaited driver call (or one contiguous block of them):
an `Except.error` models the call raising. -/
structure SearchEnv where
  /-- `page.focus` (line 102). -/
  focus : Except String Unit
  /-- the `page.evaluate` reading the current value (lines 107-110). -/
  readValue : Except String String
  /-- the backspace loop plus its wait (lines 115-117). -/
  clearPresses : Except String Unit
  /-- the fallback `page.fill` inside the `except` clause (line 121). -/
  fallbackFill : Except String Unit
  /-- `page.type` of the search term (line 124). -/
  typeTerm : Except String Unit
  /-- `page.press` Enter (line 127). -/
  pressEnter : Except String Unit
  /-- the `page.evaluate` clicking the body (lines 130-133). -/
  clickBody : Except String Unit
  /-- the final `page.wait_for_timeout(1500)` (line 136). -/
  finalWait : Except String Unit

/-- Lines 105-121: the `try` that reads the current search text and
backspaces it away; on any failure inside it, control falls to the
`except` clause's `page.fill` (whose own failure propagates). -/
def clearSearchField (env : SearchEnv) : Except String Unit :=
  match (do
    let v ← env.readValue
    if v ≠ "" then env.clearPresses else pure ()) with
  | .ok _ => pure ()
  | .error _ => env.fallbackFill

/-- Lines 97-137.  Focus, clear, type, submit, defocus, wait; every
exception outside the clearing `try` propagates.  All successful paths
reach the unconditional `return True` at line 137. -/
def set_search_filter (env : SearchEnv) (_search_term : String) : Except String Bool := do
  env.focus
  clearSearchField env
  env.typeTerm
  env.pressEnter
  env.clickBody
  env.finalWait
  pure true

/-- Driver outcomes for one dropdown setter: the `page.evaluate` that
matches and selects the option (returning whether a match was found), and
the trailing waits (the setter's own line 182 / 228 wait together with the
caller's line 294 / 299 wait). -/
structure DropdownEnv where
  evalSelect : Except String Bool
  wait : Except String Unit

/-- Lines 139-183: empty value is a no-op success (line 143); otherwise
the evaluate's boolean is returned after the wait. -/
def select_interest_filter (env : DropdownEnv) (interest_value : String) :
    Except String Bool :=
  if interest_value = "" then pure true
  else do
    let success ← env.evalSelect
    env.wait
    pure success

/-- Lines 185-229: identical logic for the company-activity dropdown. -/
def select_company_activity_filter (env : DropdownEnv) (activity_value : String) :
    Except String Bool :=
  if activity_value = "" then pure true
  else do
    let success ← env.evalSelect
    env.wait
    pure success

/-! ### Page harvester and `scrape_combination` (lines 231-477) -/

/-- One record extracted by the page-evaluate of lines 318-377 (missing
sub-fields already replaced there by the `N/A` sentinel). -/
structure Attendee where
  name : String
  jobTitle : String
  company : String
  event : String
  profileUrl : String
deriving DecidableEq

/-- One row of a combination's output CSV (fieldnames of line 391). -/
structure CsvRow where
  name : String
  jobTitle : String
  company : String
  event : String
  profileUrl : String
  interest : String
  companyActivity : String
deriving DecidableEq

/-- Python `str.isdigit` on the ASCII fragment: non-empty and all digits. -/
def isAllDigits (s : String) : Bool :=
  !s.data.isEmpty && s.data.all Char.isDigit

/-- Lines 402-434: resolve the human-readable label for a filter value;
`lookup` is the page-evaluate option-label query (which falls back to the
id itself when the option list is missing). -/
def displayLabelFor (lookup : String → String) (value : String) : String :=
  if value = "" then "N/A"
  else if isAllDigits value then lookup value
  else value

/-- Line 446: `processed_urls.add(...)` on the seen-identity set. -/
def addSeenUrl (processed : List String) (url : String) : List String :=
  if url ∈ processed then processed else processed ++ [url]

/-- Line 436-444: the row written for one attendee. -/
def mkRow (interest_display company_activity_display : String) (a : Attendee) : CsvRow :=
  ⟨a.name, a.jobTitle, a.company, a.event, a.profileUrl,
   interest_display, company_activity_display⟩

/-- Lines 390-447: the per-page write loop.  Membership of the profile URL
in `processed` only drives the duplicate log line 397; every attendee's
row is written and its URL added to the seen set.  Returns the rows
written, the updated seen set and the page's new-attendee count. -/
def writePage (iLookup aLookup : String → String) (interest company_activity : String) :
    List Attendee → List String → List CsvRow × List String × Nat
  | [], processed => ([], processed, 0)
  | a :: rest, processed =>
    let row := mkRow (displayLabelFor iLookup interest)
      (displayLabelFor aLookup company_activity) a
    let next := writePage iLookup aLookup interest company_activity rest
      (addSeenUrl processed a.profileUrl)
    (row :: next.1, next.2.1, next.2.2 + 1)

/-- What one iteration of the pagination loop (lines 310-472) observes:
either the extraction yields a page of attendees together with whether a
Next link is then found, or some awaited driver call of that iteration
raises. -/
inductive PageStep where
  | yields (attendees : List Attendee) (hasNext : Bool)
  | raises (msg : String)
deriving DecidableEq

/-- How `scrape_combination` returned: the skip of line 305, the empty-page
return of line 385, the no-next-link return of line 472, or the
catch-all `except` of lines 474-477 (which also absorbs the driver
running out of modelled steps). -/
inductive ScrapeOutcome where
  | skippedSearchFilter
  | noResults
  | finished
  | caught (msg : String)
deriving DecidableEq

/-- `ScrapeOutcome.skippedSearchFilter` recogniser. -/
def isSkippedSearchFilter : ScrapeOutcome → Bool
  | .skippedSearchFilter => true
  | _ => false

/-- Driver outcomes for one whole `scrape_combination` call. -/
structure ScrapeEnv where
  /-- lines 248-289: navigation, event-filter selection and filter reset
  (the inner `try`s there catch their own failures; the remaining awaits
  can raise). -/
  navAndReset : Except String Unit
  interestDropdown : DropdownEnv
  activityDropdown : DropdownEnv
  search : SearchEnv
  /-- successive pagination-loop iterations. -/
  steps : List PageStep
  /-- option-label query of lines 409-417. -/
  interestLabelLookup : String → String
  /-- option-label query of lines 424-432. -/
  activityLabelLookup : String → String

/-- Lines 308-472: the pagination loop, threading the running total, the
rows written so far (they persist on disk even when a later iteration
raises) and the seen-URL set. -/
def harvestLoop (env : ScrapeEnv) (interest company_activity : String) :
    List PageStep → Nat → List CsvRow → List String →
    ScrapeOutcome × Nat × List CsvRow × List String
  | [], total, rows, processed => (.caught "Timeout", total, rows, processed)
  | .raises msg :: _, total, rows, processed => (.caught msg, total, rows, processed)
  | .yields attendees hasNext :: rest, total, rows, processed =>
    if attendees.isEmpty then (.noResults, total, rows, processed)
    else
      let w := writePage env.interestLabelLookup env.activityLabelLookup
        interest company_activity attendees processed
      if hasNext then
        harvestLoop env interest company_activity rest (total + w.2.2) (rows ++ w.1) w.2.1
      else (.finished, total + w.2.2, rows ++ w.1, w.2.1)

/-- Result of `scrape_combination`: how it returned, the returned count,
the rows appended to the output file, the updated seen-URL set and the
allocated output file name. -/
structure ScrapeResult where
  outcome : ScrapeOutcome
  total : Nat
  rows : List CsvRow
  processed : List String
  outputFile : String
deriving DecidableEq

/-- Lines 231-477.  The output file is allocated first (line 235); the
`try` of lines 248-473 covers everything from navigation to pagination, and
its `except` (lines 474-477) catches any exception and returns the running
total, so this function never propagates a page-interaction exception.
The returned values of `select_interest_filter` and
`select_company_activity_filter` are discarded (lines 292-299); only
`set_search_filter`'s value is tested (lines 302-305). -/
def scrape_combination (env : ScrapeEnv) (attendee_name interest company_activity : String)
    (fs : List String) (processed : List String) : ScrapeResult :=
  let output_file := generate_output_filename attendee_name interest company_activity fs
  match env.navAndReset with
  | .error msg => ⟨.caught msg, 0, [], processed, output_file⟩
  | .ok _ =>
    match (if interest = "" then Except.ok true
           else select_interest_filter env.interestDropdown interest) with
    | .error msg => ⟨.caught msg, 0, [], processed, output_file⟩
    | .ok _ =>
      match (if company_activity = "" then Except.ok true
             else select_company_activity_filter env.activityDropdown company_activity) with
      | .error msg => ⟨.caught msg, 0, [], processed, output_file⟩
      | .ok _ =>
        match set_search_filter env.search attendee_name with
        | .error msg => ⟨.caught msg, 0, [], processed, output_file⟩
        | .ok false => ⟨.skippedSearchFilter, 0, [], processed, output_file⟩
        | .ok true =>
          let r := harvestLoop env interest company_activity env.steps 0 [] processed
          ⟨r.1, r.2.1, r.2.2.1, r.2.2.2, output_file⟩

/-! ### Run ledger and orchestrator (`run_all_combinations`, lines 479-703) -/

/-- One row of the master log `mwc_scraper_master_log.csv` (fieldnames of
line 503; the timestamp column carries no behaviour and is not modelled). -/
structure LedgerEntry where
  letter : String
  interest : String
  activity : String
  outputFile : String
  attendeesFound : Nat
  status : String
deriving DecidableEq

/-- A combination tuple as used for resume bookkeeping (lines 534, 583). -/
abbrev Combo := String × String × String

/-- Lines 596-604: the Started row. -/
def startedEntry (letter interest activity output_file : String) : LedgerEntry :=
  ⟨letter, interest, activity, output_file, 0, "Started"⟩

/-- Lines 616-624: the Completed row. -/
def completedEntry (letter interest activity output_file : String) (n : Nat) : LedgerEntry :=
  ⟨letter, interest, activity, output_file, n, "Completed"⟩

/-- Lines 639-647: the Error row, message truncated to 100 characters. -/
def errorEntry (letter interest activity output_file msg : String) : LedgerEntry :=
  ⟨letter, interest, activity, output_file, 0, "Error: " ++ msg.take 100⟩

/-- Lines 530-536: collect, in file order, every row whose Status column
equals `Completed`. -/
def loadCompletedCombinations (rows : List LedgerEntry) : List Combo :=
  rows.filterMap fun row =>
    if row.status = "Completed" then some (row.letter, row.interest, row.activity)
    else none

/-- Lines 501-505: the master log is opened in `'w'` mode and only the
header is written, so whatever the file held before the run is erased. -/
def truncateMasterLog (_prior : List LedgerEntry) : List LedgerEntry := []

/-- Lines 501-538 in program order: the master log is truncated to its
header (lines 501-505) and only then read back for completed combinations
(lines 527-538). `prior` is the ledger content left by earlier runs. -/
def loadResumeState (prior : List LedgerEntry) : List Combo :=
  loadCompletedCombinations (truncateMasterLog prior)

/-- Outcomes of the three recovery rungs of lines 649-676: whether the
in-place reload succeeds (lines 650-652), whether the fresh-page attempt
succeeds (lines 656-660), whether the context-recreation block raises
(lines 664-676), and what `login_to_mwc` returns when that block runs to
the login (line 670). -/
structure RungEnv where
  navOk : Bool
  newPageOk : Bool
  ctxRaises : Bool
  reloginOk : Bool
deriving DecidableEq

/-- Lines 649-676: the recovery ladder.  Returns whether the orchestrator
executes `break` (line 676) — which in the source exits only the innermost
`for company_activity` loop.  A re-login that merely returns `False` hits
line 673 (\"Continuing to next combination\") and does not break. -/
def runRecovery (r : RungEnv) : Bool :=
  if r.navOk then false
  else if r.newPageOk then false
  else if r.ctxRaises then true
  else false

/-- Per-combination driver environment for the orchestrator loop body:
whether the pre-scrape `page.wait_for_timeout(2000)` of line 607 raises
(the only modelled awaited call of the orchestrator's `try` body outside
`scrape_combination`, whose own exceptions are caught internally), the
scrape environment, the files existing when the combination starts, and
the recovery-ladder outcomes used if the body raises. -/
structure CombEnv where
  preWaitFails : Option String
  scrapeEnv : ScrapeEnv
  fsFiles : List String
  recovery : RungEnv

/-- The orchestrator's evolving state: master-log rows written this run,
the in-memory `completed_combinations` list (line 525), every combination
reaching the loop body (line 578), every combination passing the resume
check (line 583), the combinations whose error handler ran the recovery
ladder, and the global `processed_urls` set (line 508). -/
structure OrchState where
  ledger : List LedgerEntry
  completed : List Combo
  enumerated : List Combo
  processed : List Combo
  recoveries : List Combo
  urls : List String
deriving DecidableEq

/-- Lines 578-676: one pass of the loop body for combination `c`.
Returns the new state and whether `break` was executed. -/
def processCombination (env : Combo → CombEnv) (st : OrchState) (c : Combo) :
    OrchState × Bool :=
  let st1 := { st with enumerated := st.enumerated ++ [c] }
  if c ∈ st1.completed then (st1, false)
  else
    let e := env c
    let output_file := generate_output_filename c.1 c.2.1 c.2.2 e.fsFiles
    let st2 := { st1 with
      processed := st1.processed ++ [c],
      ledger := st1.ledger ++ [startedEntry c.1 c.2.1 c.2.2 output_file] }
    match e.preWaitFails with
    | some msg =>
      ({ st2 with
          ledger := st2.ledger ++ [errorEntry c.1 c.2.1 c.2.2 output_file msg],
          recoveries := st2.recoveries ++ [c] },
        runRecovery e.recovery)
    | none =>
      let r := scrape_combination e.scrapeEnv c.1 c.2.1 c.2.2 e.fsFiles st2.urls
      ({ st2 with
          ledger := st2.ledger ++ [completedEntry c.1 c.2.1 c.2.2 output_file r.total],
          completed := st2.completed ++ [c],
          urls := r.processed },
        false)

/-- Line 577: the innermost loop; a `break` abandons only the remaining
company activities. -/
def runActivities (env : Combo → CombEnv) (letter interest : String) :
    List String → OrchState → OrchState
  | [], st => st
  | a :: rest, st =>
    let res := processCombination env st (letter, interest, a)
    if res.2 then res.1 else runActivities env letter interest rest res.1

/-- Line 576: the middle loop; never interrupted by the inner `break`. -/
def runInterests (env : Combo → CombEnv) (letter : String)
    (activities : List String) : List String → OrchState → OrchState
  | [], st => st
  | i :: rest, st =>
    runInterests env letter activities rest (runActivities env letter i activities st)

/-- Line 575: the outer loop. -/
def runLetters (env : Combo → CombEnv) (interests activities : List String) :
    List String → OrchState → OrchState
  | [], st => st
  | l :: rest, st =>
    runLetters env interests activities rest (runInterests env l activities interests st)

/-- Lines 479-677 reduced to the combination-iteration controller: truncate
and reload the master log (lines 501-538), seed the seen-URL set from
pre-existing CSVs (`urls0`, lines 510-522), then run the nested loops.
Input-file reading, credential checks and login are upstream guards that
either abort before the loop or leave it unaffected, and are not part of
the loop model. -/
def run_all_combinations (env : Combo → CombEnv) (letters interests activities : List String)
    (priorLedger : List LedgerEntry) (urls0 : List String) : OrchState :=
  runLetters env interests activities letters
    { ledger := []
      completed := loadResumeState priorLedger
      enumerated := []
      processed := []
      recoveries := []
      urls := urls0 }

/-- The cross-product in the nesting order of lines 575-577. -/
def allCombinations (letters interests activities : List String) : List Combo :=
  letters.flatMap fun l => interests.flatMap fun i => activities.map fun a => (l, i, a)

/-! ### Concrete driver environments used by the closed theorems -/

/-- A search-bar environment where every driver call succeeds. -/
def okSearchEnv : SearchEnv :=
  ⟨.ok (), .ok "", .ok (), .ok (), .ok (), .ok (), .ok (), .ok ()⟩

/-- A scrape environment where everything succeeds and the single results
page is empty. -/
def emptyPageScrapeEnv : ScrapeEnv :=
  ⟨.ok (), ⟨.ok true, .ok ()⟩, ⟨.ok true, .ok ()⟩, okSearchEnv,
    [PageStep.yields [] false], fun s => s, fun s => s⟩

/-- A benign per-combination environment: the pre-scrape wait succeeds and
scraping sees one empty page. -/
def okCombEnv : CombEnv :=
  ⟨none, emptyPageScrapeEnv, [], ⟨true, true, false, true⟩⟩

/-- The benign orchestrator environment. -/
def benignEnv : Combo → CombEnv := fun _ => okCombEnv

/-- A sample attendee record. -/
def sampleAttendee : Attendee :=
  ⟨"Ann Lee", "CTO", "Acme", "MWC Barcelona 2025", "https://example.org/p/1"⟩

/-- A second sample attendee record. -/
def sampleAttendee2 : Attendee :=
  ⟨"Bo Chen", "CEO", "Bext", "MWC Barcelona 2025", "https://example.org/p/2"⟩

/-- A scrape environment whose second pagination iteration raises. -/
def raisingScrapeEnv : ScrapeEnv :=
  ⟨.ok (), ⟨.ok true, .ok ()⟩, ⟨.ok true, .ok ()⟩, okSearchEnv,
    [PageStep.yields [sampleAttendee] true, PageStep.raises "boom"],
    fun s => s, fun s => s⟩

/-- A scrape environment where the interest dropdown reports that no
option matched, and one results page holds two attendees. -/
def interestNotFoundScrapeEnv : ScrapeEnv :=
  ⟨.ok (), ⟨.ok false, .ok ()⟩, ⟨.ok true, .ok ()⟩, okSearchEnv,
    [PageStep.yields [sampleAttendee, sampleAttendee2] false],
    fun s => s, fun s => s⟩

/-- A combination environment whose body raises and whose recovery ladder
reaches the final rung, where the re-login merely returns `False`. -/
def reloginFailCombEnv : CombEnv :=
  ⟨some "boom", emptyPageScrapeEnv, [], ⟨false, false, false, false⟩⟩

/-- A combination environment whose body raises and whose recovery ladder's
final context-recreation block itself raises. -/
def ctxRaiseCombEnv : CombEnv :=
  ⟨some "boom", emptyPageScrapeEnv, [], ⟨false, false, true, false⟩⟩

/-- Success-value view of a filter-setter result: the boolean returned on
the `ok` path, `true` when the call raised. -/
def searchOkIsTrue : Except String Bool → Bool
  | .ok b => b
  | .error _ => true


/-! ### Helper lemmas: characters and slugification -/

theorem toNat_ofNat_valid (n : Nat) (h : n.isValidChar) : (Char.ofNat n).toNat = n := by
  rw [Char.ofNat, dif_pos h]
  simp only [Char.ofNatAux, Char.toNat]
  have hsize : UInt32.size = 4294967296 := rfl
  have hlt : n < UInt32.size := by
    rcases h with h | h
    · omega
    · omega
  simp [UInt32.toNat, BitVec.toNat_ofNat, Nat.mod_eq_of_lt hlt]

theorem toLower_toLower (c : Char) : c.toLower.toLower = c.toLower := by
  unfold Char.toLower
  by_cases h : c.toNat ≥ 65 ∧ c.toNat ≤ 90
  · rw [if_pos h]
    have hv : (c.toNat + 32).isValidChar := by
      left
      omega
    rw [toNat_ofNat_valid _ hv]
    rw [if_neg (by omega)]
  · rw [if_neg h, if_neg h]

theorem cleanChar_cases (c : Char) :
    cleanChar c = '-' ∨
      (cleanChar c = c.toLower ∧ c.toLower.isAlphanum = true ∧ c.toLower ≠ ' ') := by
  unfold cleanChar slugChar spaceToHyphen
  by_cases h : (c.toLower.isAlphanum = true) ∨ c.toLower = ' '
  · rw [if_pos h]
    by_cases hsp : c.toLower = ' '
    · rw [if_pos hsp]
      exact Or.inl rfl
    · rw [if_neg hsp]
      right
      refine ⟨rfl, ?_, hsp⟩
      rcases h with h | h
      · exact h
      · exact absurd h hsp
  · rw [if_neg h, if_neg (by decide)]
    exact Or.inl rfl

theorem cleanChar_idem (c : Char) : cleanChar (cleanChar c) = cleanChar c := by
  rcases cleanChar_cases c with h | ⟨h, halnum, hsp⟩
  · rw [h]
    decide
  · rw [h]
    unfold cleanChar slugChar spaceToHyphen
    rw [toLower_toLower]
    rw [if_pos (Or.inl halnum), if_neg hsp]

theorem map_cleanChar_fix (l : List Char) (h : ∀ c ∈ l, cleanChar c = c) :
    l.map cleanChar = l := by
  induction l with
  | nil => rfl
  | cons a l ih =>
    simp only [List.map_cons]
    rw [h a (List.mem_cons_self a l), ih (fun c hc => h c (List.mem_cons_of_mem a hc))]

theorem collapseHyphens_cons (x : Char) (xs : List Char) :
    ∃ ys, collapseHyphens (x :: xs) = x :: ys := by
  induction xs generalizing x with
  | nil => exact ⟨[], rfl⟩
  | cons d rest ih =>
    by_cases h : x = '-' ∧ d = '-'
    · obtain ⟨ys, hys⟩ := ih d
      refine ⟨ys, ?_⟩
      rw [collapseHyphens, if_pos h, hys, h.1, h.2]
    · exact ⟨collapseHyphens (d :: rest), by rw [collapseHyphens, if_neg h]⟩

theorem hasDoubleHyphenChars_collapseHyphens (l : List Char) :
    hasDoubleHyphenChars (collapseHyphens l) = false := by
  induction l using collapseHyphens.induct with
  | case1 => rfl
  | case2 c => rfl
  | case3 c d rest h ih =>
    rw [collapseHyphens, if_pos h]
    exact ih
  | case4 c d rest h ih =>
    rw [collapseHyphens, if_neg h]
    obtain ⟨ys, hys⟩ := collapseHyphens_cons d rest
    rw [hys] at ih ⊢
    rw [hasDoubleHyphenChars, if_neg]
    · exact ih
    · intro hcd
      exact h hcd

theorem collapseHyphens_of_not_double (l : List Char)
    (h : hasDoubleHyphenChars l = false) : collapseHyphens l = l := by
  induction l using collapseHyphens.induct with
  | case1 => rfl
  | case2 c => rfl
  | case3 c d rest hcd ih =>
    rw [hasDoubleHyphenChars, if_pos hcd] at h
    exact absurd h (by simp)
  | case4 c d rest hcd ih =>
    rw [hasDoubleHyphenChars, if_neg hcd] at h
    rw [collapseHyphens, if_neg hcd, ih h]

theorem collapseHyphens_idem (l : List Char) :
    collapseHyphens (collapseHyphens l) = collapseHyphens l :=
  collapseHyphens_of_not_double _ (hasDoubleHyphenChars_collapseHyphens l)

theorem mem_collapseHyphens {a : Char} {l : List Char}
    (h : a ∈ collapseHyphens l) : a ∈ l := by
  induction l using collapseHyphens.induct with
  | case1 => exact h
  | case2 c => exact h
  | case3 c d rest hcd ih =>
    rw [collapseHyphens, if_pos hcd] at h
    exact List.mem_cons_of_mem _ (ih h)
  | case4 c d rest hcd ih =>
    rw [collapseHyphens, if_neg hcd] at h
    rcases List.mem_cons.mp h with h | h
    · exact h ▸ List.mem_cons_self _ _
    · exact List.mem_cons_of_mem _ (ih h)

/-! ### Helper lemmas: decimal rendering and the allocator -/

theorem myDigits_lt (n : Nat) (h : n < 10) : myDigits n = [Nat.digitChar n] := by
  rw [myDigits, dif_pos h]

theorem myDigits_ge (n : Nat) (h : 10 ≤ n) :
    myDigits n = myDigits (n / 10) ++ [Nat.digitChar (n % 10)] := by
  rw [myDigits]
  rw [dif_neg (by omega)]

theorem myDigits_ne_nil (n : Nat) : myDigits n ≠ [] := by
  by_cases h : n < 10
  · rw [myDigits_lt n h]
    simp
  · rw [myDigits_ge n (by omega)]
    simp

theorem toDigitsCore_eq_myDigits (fuel : Nat) : ∀ (n : Nat) (ds : List Char),
    n < 10 ^ fuel → 0 < fuel → Nat.toDigitsCore 10 fuel n ds = myDigits n ++ ds := by
  induction fuel with
  | zero =>
    intro n ds _ hpos
    omega
  | succ fuel ih =>
    intro n ds hlt _
    rw [Nat.toDigitsCore]
    by_cases h0 : n / 10 = 0
    · have hn : n < 10 := by omega
      rw [if_pos h0, myDigits_lt n hn, Nat.mod_eq_of_lt hn]
      simp
    · have h10 : 10 ≤ n := by omega
      have hdiv : n / 10 < 10 ^ fuel := by
        rw [Nat.div_lt_iff_lt_mul (by omega)]
        calc n < 10 ^ (fuel + 1) := hlt
          _ = 10 ^ fuel * 10 := by rw [pow_succ]
      have hfpos : 0 < fuel := by
        rcases Nat.eq_zero_or_pos fuel with hf | hf
        · subst hf
          simp at hdiv
          omega
        · exact hf
      rw [if_neg h0, ih (n / 10) _ hdiv hfpos, myDigits_ge n h10]
      simp

theorem toDigits_eq_myDigits (n : Nat) : Nat.toDigits 10 n = myDigits n := by
  rw [Nat.toDigits]
  have hlt : n < 10 ^ (n + 1) := by
    calc n < 2 ^ n := Nat.lt_two_pow n
      _ ≤ 10 ^ n := Nat.pow_le_pow_left (by omega) n
      _ ≤ 10 ^ (n + 1) := Nat.pow_le_pow_right (by omega) (Nat.le_succ n)
  rw [toDigitsCore_eq_myDigits (n + 1) n [] hlt (Nat.succ_pos n)]
  simp

theorem digitChar_bounded_inj : ∀ a, a < 10 → ∀ b, b < 10 →
    Nat.digitChar a = Nat.digitChar b → a = b := by decide

theorem myDigits_inj (m : Nat) : ∀ n, myDigits m = myDigits n → m = n := by
  induction m using Nat.strong_induction_on with
  | _ m ih =>
    intro n h
    by_cases hm : m < 10
    · by_cases hn : n < 10
      · rw [myDigits_lt m hm, myDigits_lt n hn] at h
        exact digitChar_bounded_inj m hm n hn (by simpa using h)
      · rw [myDigits_lt m hm, myDigits_ge n (by omega)] at h
        have hlen := congrArg List.length h
        simp at hlen
        exact absurd hlen (myDigits_ne_nil (n / 10))
    · by_cases hn : n < 10
      · rw [myDigits_ge m (by omega), myDigits_lt n hn] at h
        have hlen := congrArg List.length h
        simp at hlen
        exact absurd hlen (myDigits_ne_nil (m / 10))
      · rw [myDigits_ge m (by omega), myDigits_ge n (by omega)] at h
        have h' := congrArg List.reverse h
        simp only [List.reverse_append, List.reverse_cons, List.reverse_nil,
          List.nil_append, List.singleton_append, List.cons.injEq] at h'
        have hmod : m % 10 = n % 10 :=
          digitChar_bounded_inj _ (Nat.mod_lt m (by omega)) _ (Nat.mod_lt n (by omega)) h'.1
        have hdigits : myDigits (m / 10) = myDigits (n / 10) :=
          List.reverse_injective h'.2
        have hdiv : m / 10 = n / 10 :=
          ih (m / 10) (Nat.div_lt_self (by omega) (by omega)) (n / 10) hdigits
        omega

theorem nat_repr_inj {m n : Nat} (h : Nat.repr m = Nat.repr n) : m = n := by
  have hd : Nat.toDigits 10 m = Nat.toDigits 10 n := by
    have hdata := congrArg String.data h
    simpa [Nat.repr, List.asString] using hdata
  rw [toDigits_eq_myDigits, toDigits_eq_myDigits] at hd
  exact myDigits_inj m n hd

theorem filenameFor_inj (base : String) {m n : Nat}
    (h : filenameFor base m = filenameFor base n) : m = n := by
  have hdata := congrArg String.data h
  simp only [filenameFor, String.data_append, List.append_assoc] at hdata
  have h1 := List.append_cancel_left hdata
  have h2 := List.append_cancel_left h1
  have h3 := List.append_cancel_right h2
  exact nat_repr_inj (String.ext h3)

theorem findAvailable_shape (base : String) (fs : List String) (fuel : Nat) :
    ∀ counter, ∃ n, counter ≤ n ∧ findAvailable base fs fuel counter = filenameFor base n := by
  induction fuel with
  | zero =>
    intro counter
    exact ⟨counter, Nat.le_refl _, rfl⟩
  | succ fuel ih =>
    intro counter
    rw [findAvailable]
    by_cases h : filenameFor base counter ∈ fs
    · rw [if_pos h]
      obtain ⟨n, hn, he⟩ := ih (counter + 1)
      exact ⟨n, by omega, he⟩
    · rw [if_neg h]
      exact ⟨counter, Nat.le_refl _, rfl⟩

theorem findAvailable_not_mem_of_exists (base : String) (fs : List String) (fuel : Nat) :
    ∀ counter, (∃ k, k < fuel ∧ filenameFor base (counter + k) ∉ fs) →
      findAvailable base fs fuel counter ∉ fs := by
  induction fuel with
  | zero =>
    intro counter h
    obtain ⟨k, hk, _⟩ := h
    omega
  | succ fuel ih =>
    intro counter h
    rw [findAvailable]
    by_cases hmem : filenameFor base counter ∈ fs
    · rw [if_pos hmem]
      apply ih
      obtain ⟨k, hk, hfree⟩ := h
      rcases Nat.eq_zero_or_pos k with h0 | h0
      · subst h0
        simp at hfree
        exact absurd hmem hfree
      · refine ⟨k - 1, by omega, ?_⟩
        rw [show counter + 1 + (k - 1) = counter + k by omega]
        exact hfree
    · rw [if_neg hmem]
      exact hmem

theorem exists_free_counter (base : String) (fs : List String) :
    ∃ k, k < fs.length + 1 ∧ filenameFor base (1 + k) ∉ fs := by
  by_contra hall
  push_neg at hall
  have hinj : Function.Injective
      (fun k : Fin (fs.length + 1) => filenameFor base (1 + k.val)) := by
    intro a b hab
    have := filenameFor_inj base hab
    exact Fin.ext (by omega)
  have hsub : (Finset.univ.image (fun k : Fin (fs.length + 1) => filenameFor base (1 + k.val)))
      ⊆ fs.toFinset := by
    intro x hx
    simp only [Finset.mem_image, Finset.mem_univ, true_and] at hx
    obtain ⟨k, rfl⟩ := hx
    exact List.mem_toFinset.mpr (hall k.val k.isLt)
  have hcard := Finset.card_le_card hsub
  rw [Finset.card_image_of_injective _ hinj, Finset.card_univ, Fintype.card_fin] at hcard
  have := List.toFinset_card_le fs
  omega

theorem generate_output_filename_not_mem (attendee_name interest company_activity : String)
    (fs : List String) :
    generate_output_filename attendee_name interest company_activity fs ∉ fs := by
  unfold generate_output_filename
  exact findAvailable_not_mem_of_exists _ _ _ 1 (exists_free_counter _ fs)


/-! ### Claim C5: slugification -/

/-- C5 (counterexample): the name-prefix slugifier lacks the
hyphen-collapsing loop, so slugifying `a!!b` yields `a--b`, which contains
two consecutive hyphens — and the filename base built from that component
inherits them.  This refutes the claim for the name-prefix component. -/
theorem c5_name_slug_double_hyphen :
    clean_name "a!!b" = "a--b" ∧
    hasConsecutiveHyphens (clean_name "a!!b") = true ∧
    hasConsecutiveHyphens (buildBaseName "a!!b" "" "") = true := by
  decide

/-- C5 (amended): all three component slugifiers are idempotent, and the
interest and company-activity slugifiers never produce consecutive
hyphens; the name-prefix slugifier can (it lacks the collapsing loop). -/
theorem c5_slug_idempotent_and_no_double_hyphen :
    (∀ s, clean_name (clean_name s) = clean_name s) ∧
    (∀ s, clean_interest (clean_interest s) = clean_interest s) ∧
    (∀ s, clean_activity (clean_activity s) = clean_activity s) ∧
    (∀ s, hasConsecutiveHyphens (clean_interest s) = false) ∧
    (∀ s, hasConsecutiveHyphens (clean_activity s) = false) := by
  have hmapfix : ∀ l : List Char,
      (collapseHyphens (l.map cleanChar)).map cleanChar
        = collapseHyphens (l.map cleanChar) := by
    intro l
    apply map_cleanChar_fix
    intro c hc
    obtain ⟨d, _, rfl⟩ := List.mem_map.mp (mem_collapseHyphens hc)
    exact cleanChar_idem d
  have hmapmap : ∀ l : List Char,
      (l.map cleanChar).map cleanChar = l.map cleanChar := by
    intro l
    apply map_cleanChar_fix
    intro c hc
    obtain ⟨d, _, rfl⟩ := List.mem_map.mp hc
    exact cleanChar_idem d
  refine ⟨?_, ?_, ?_, ?_, ?_⟩
  · intro s
    show (⟨((⟨s.data.map cleanChar⟩ : String).data.map cleanChar)⟩ : String)
        = ⟨s.data.map cleanChar⟩
    rw [show (⟨s.data.map cleanChar⟩ : String).data = s.data.map cleanChar from rfl,
      hmapmap]
  · intro s
    show (⟨collapseHyphens ((⟨collapseHyphens (s.data.map cleanChar)⟩ : String).data.map
        cleanChar)⟩ : String) = ⟨collapseHyphens (s.data.map cleanChar)⟩
    rw [show (⟨collapseHyphens (s.data.map cleanChar)⟩ : String).data
        = collapseHyphens (s.data.map cleanChar) from rfl,
      hmapfix, collapseHyphens_idem]
  · intro s
    show (⟨collapseHyphens ((⟨collapseHyphens (s.data.map cleanChar)⟩ : String).data.map
        cleanChar)⟩ : String) = ⟨collapseHyphens (s.data.map cleanChar)⟩
    rw [show (⟨collapseHyphens (s.data.map cleanChar)⟩ : String).data
        = collapseHyphens (s.data.map cleanChar) from rfl,
      hmapfix, collapseHyphens_idem]
  · intro s
    exact hasDoubleHyphenChars_collapseHyphens _
  · intro s
    exact hasDoubleHyphenChars_collapseHyphens _

/-! ### Claim C6: filename allocation -/

/-- C6: the allocator always returns a name absent from the filesystem, of
the form base plus a numeric suffix at least 1; re-invoking with identical
inputs returns the same name exactly when the first returned name was not
created on disk in between. -/
theorem c6_allocator_fresh_and_reuse (attendee_name interest company_activity : String)
    (fs : List String) :
    generate_output_filename attendee_name interest company_activity fs ∉ fs ∧
    (∃ k, 1 ≤ k ∧ generate_output_filename attendee_name interest company_activity fs
      = filenameFor (buildBaseName attendee_name interest company_activity) k) ∧
    (∀ created : Bool,
      (generate_output_filename attendee_name interest company_activity
          (if created then
            fs ++ [generate_output_filename attendee_name interest company_activity fs]
          else fs)
        = generate_output_filename attendee_name interest company_activity fs)
      ↔ created = false) := by
  refine ⟨generate_output_filename_not_mem _ _ _ fs, ?_, ?_⟩
  · unfold generate_output_filename
    exact findAvailable_shape _ fs _ 1
  · intro created
    cases created
    · simp
    · simp only [if_pos trivial, if_true]
      constructor
      · intro h
        have hfresh := generate_output_filename_not_mem attendee_name interest company_activity
          (fs ++ [generate_output_filename attendee_name interest company_activity fs])
        rw [h] at hfresh
        exact absurd (List.mem_append_right fs (List.mem_singleton_self _)) hfresh
      · intro h
        exact absurd h (by simp)


/-! ### Helper lemmas: search filter, harvester, scrape -/

theorem searchOkIsTrue_bind_unit (e : Except String Unit) (k : Unit → Except String Bool)
    (hk : searchOkIsTrue (k ()) = true) : searchOkIsTrue (e >>= k) = true := by
  cases e with
  | ok u =>
    cases u
    simpa [Bind.bind, Except.bind] using hk
  | error m => simp [Bind.bind, Except.bind, searchOkIsTrue]

theorem searchOkIsTrue_set_search_filter (env : SearchEnv) (t : String) :
    searchOkIsTrue (set_search_filter env t) = true := by
  unfold set_search_filter
  apply searchOkIsTrue_bind_unit
  apply searchOkIsTrue_bind_unit
  apply searchOkIsTrue_bind_unit
  apply searchOkIsTrue_bind_unit
  apply searchOkIsTrue_bind_unit
  apply searchOkIsTrue_bind_unit
  rfl

theorem set_search_filter_ok_true (env : SearchEnv) (t : String) (b : Bool)
    (h : set_search_filter env t = .ok b) : b = true := by
  have hok := searchOkIsTrue_set_search_filter env t
  rw [h] at hok
  simpa [searchOkIsTrue] using hok

theorem harvestLoop_not_skipped (env : ScrapeEnv) (interest company_activity : String) :
    ∀ (steps : List PageStep) (total : Nat) (rows : List CsvRow) (processed : List String),
      isSkippedSearchFilter
        (harvestLoop env interest company_activity steps total rows processed).1 = false := by
  intro steps
  induction steps with
  | nil =>
    intro total rows processed
    rfl
  | cons step rest ih =>
    intro total rows processed
    cases step with
    | raises msg => rfl
    | yields attendees hasNext =>
      rw [harvestLoop]
      by_cases hempty : attendees.isEmpty
      · rw [if_pos hempty]
        rfl
      · rw [if_neg hempty]
        cases hasNext with
        | true =>
          rw [if_pos rfl]
          exact ih _ _ _
        | false =>
          rw [if_neg (by simp)]
          rfl

theorem harvestLoop_lookup_congr (e1 e2 : ScrapeEnv)
    (hil : e1.interestLabelLookup = e2.interestLabelLookup)
    (hal : e1.activityLabelLookup = e2.activityLabelLookup) (interest company_activity : String) :
    ∀ (steps : List PageStep) (total : Nat) (rows : List CsvRow) (processed : List String),
      harvestLoop e1 interest company_activity steps total rows processed
        = harvestLoop e2 interest company_activity steps total rows processed := by
  intro steps
  induction steps with
  | nil =>
    intro total rows processed
    rfl
  | cons step rest ih =>
    intro total rows processed
    cases step with
    | raises msg => rfl
    | yields attendees hasNext =>
      rw [harvestLoop, harvestLoop, hil, hal]
      by_cases hempty : attendees.isEmpty
      · rw [if_pos hempty, if_pos hempty]
      · rw [if_neg hempty, if_neg hempty]
        cases hasNext with
        | true =>
          rw [if_pos rfl, if_pos rfl]
          exact ih _ _ _
        | false =>
          rw [if_neg (by simp), if_neg (by simp)]


/-! ### Claim C10: the search-filter skip branch is dead -/

/-- C10: `set_search_filter` never reports failure — on every environment
its non-exception result is `True` — and consequently the skip branch of
`scrape_combination` (lines 303-305) is never taken. -/
theorem c10_search_filter_always_true :
    (∀ (env : SearchEnv) (t : String), searchOkIsTrue (set_search_filter env t) = true) ∧
    (∀ (env : ScrapeEnv) (n i a : String) (fs urls : List String),
      isSkippedSearchFilter (scrape_combination env n i a fs urls).outcome = false) := by
  refine ⟨searchOkIsTrue_set_search_filter, ?_⟩
  intro env n i a fs urls
  unfold scrape_combination
  cases env.navAndReset with
  | error msg => rfl
  | ok u =>
    dsimp only
    cases (if i = "" then Except.ok true else select_interest_filter env.interestDropdown i) with
    | error msg => rfl
    | ok v =>
      dsimp only
      cases (if a = "" then Except.ok true
          else select_company_activity_filter env.activityDropdown a) with
      | error msg => rfl
      | ok v2 =>
        dsimp only
        cases hs : set_search_filter env.search n with
        | error msg => rfl
        | ok b =>
          cases b with
          | false => exact absurd (set_search_filter_ok_true env.search n false hs) (by simp)
          | true => exact harvestLoop_not_skipped env i a env.steps 0 [] urls

/-! ### Claim C8: no record dropped by the seen set -/

/-- C8: the per-page write loop writes one row for every harvested
attendee, in order, whatever the seen-URL set contains — membership only
drives the duplicate log line — and its count is the full page length. -/
theorem c8_no_record_dropped (iLookup aLookup : String → String)
    (interest company_activity : String) (attendees : List Attendee)
    (processed : List String) :
    (writePage iLookup aLookup interest company_activity attendees processed).1
      = attendees.map (mkRow (displayLabelFor iLookup interest)
          (displayLabelFor aLookup company_activity)) ∧
    (writePage iLookup aLookup interest company_activity attendees processed).2.2
      = attendees.length := by
  induction attendees generalizing processed with
  | nil => exact ⟨rfl, rfl⟩
  | cons a rest ih =>
    obtain ⟨h1, h2⟩ := ih (addSeenUrl processed a.profileUrl)
    constructor
    · rw [writePage]
      dsimp only
      rw [h1, List.map_cons]
    · rw [writePage]
      dsimp only
      rw [h2, List.length_cons]


/-! ### Claim C4: dropdown-setter results are ignored -/

theorem scrape_interest_value_irrelevant (env : ScrapeEnv) (w : Except String Unit)
    (b b' : Bool) (n i a : String) (fs urls : List String) :
    scrape_combination { env with interestDropdown := ⟨Except.ok b, w⟩ } n i a fs urls
      = scrape_combination { env with interestDropdown := ⟨Except.ok b', w⟩ } n i a fs urls := by
  obtain ⟨nav, idd, add, se, steps, il, al⟩ := env
  have hharv := harvestLoop_lookup_congr
    ⟨nav, ⟨Except.ok b, w⟩, add, se, steps, il, al⟩
    ⟨nav, ⟨Except.ok b', w⟩, add, se, steps, il, al⟩ rfl rfl i a
  have hrel : (∃ v v',
        (if i = "" then Except.ok true
          else select_interest_filter ⟨Except.ok b, w⟩ i) = Except.ok v ∧
        (if i = "" then Except.ok true
          else select_interest_filter ⟨Except.ok b', w⟩ i) = Except.ok v') ∨
      (∃ m,
        (if i = "" then Except.ok true
          else select_interest_filter ⟨Except.ok b, w⟩ i) = Except.error m ∧
        (if i = "" then Except.ok true
          else select_interest_filter ⟨Except.ok b', w⟩ i) = Except.error m) := by
    by_cases hi : i = ""
    · exact Or.inl ⟨true, true, by rw [if_pos hi], by rw [if_pos hi]⟩
    · rw [if_neg hi, if_neg hi]
      unfold select_interest_filter
      rw [if_neg hi, if_neg hi]
      cases w with
      | ok u =>
        cases u
        exact Or.inl ⟨b, b', rfl, rfl⟩
      | error m => exact Or.inr ⟨m, rfl, rfl⟩
  unfold scrape_combination
  cases nav with
  | error msg => rfl
  | ok u =>
    dsimp only
    rcases hrel with ⟨v, v', h1, h2⟩ | ⟨m, h1, h2⟩
    · rw [h1, h2]
      dsimp only
      cases (if a = "" then Except.ok true
          else select_company_activity_filter add a) with
      | error msg => rfl
      | ok v2 =>
        dsimp only
        cases set_search_filter se n with
        | error msg => rfl
        | ok bb =>
          cases bb with
          | false => rfl
          | true =>
            dsimp only
            rw [hharv]
    · rw [h1, h2]

theorem scrape_activity_value_irrelevant (env : ScrapeEnv) (w : Except String Unit)
    (b b' : Bool) (n i a : String) (fs urls : List String) :
    scrape_combination { env with activityDropdown := ⟨Except.ok b, w⟩ } n i a fs urls
      = scrape_combination { env with activityDropdown := ⟨Except.ok b', w⟩ } n i a fs urls := by
  obtain ⟨nav, idd, add, se, steps, il, al⟩ := env
  have hharv := harvestLoop_lookup_congr
    ⟨nav, idd, ⟨Except.ok b, w⟩, se, steps, il, al⟩
    ⟨nav, idd, ⟨Except.ok b', w⟩, se, steps, il, al⟩ rfl rfl i a
  have hrel : (∃ v v',
        (if a = "" then Except.ok true
          else select_company_activity_filter ⟨Except.ok b, w⟩ a) = Except.ok v ∧
        (if a = "" then Except.ok true
          else select_company_activity_filter ⟨Except.ok b', w⟩ a) = Except.ok v') ∨
      (∃ m,
        (if a = "" then Except.ok true
          else select_company_activity_filter ⟨Except.ok b, w⟩ a) = Except.error m ∧
        (if a = "" then Except.ok true
          else select_company_activity_filter ⟨Except.ok b', w⟩ a) = Except.error m) := by
    by_cases ha : a = ""
    · exact Or.inl ⟨true, true, by rw [if_pos ha], by rw [if_pos ha]⟩
    · rw [if_neg ha, if_neg ha]
      unfold select_company_activity_filter
      rw [if_neg ha, if_neg ha]
      cases w with
      | ok u =>
        cases u
        exact Or.inl ⟨b, b', rfl, rfl⟩
      | error m => exact Or.inr ⟨m, rfl, rfl⟩
  unfold scrape_combination
  cases nav with
  | error msg => rfl
  | ok u =>
    dsimp only
    cases (if i = "" then Except.ok true
        else select_interest_filter idd i) with
    | error msg => rfl
    | ok v0 =>
      dsimp only
      rcases hrel with ⟨v, v', h1, h2⟩ | ⟨m, h1, h2⟩
      · rw [h1, h2]
        dsimp only
        cases set_search_filter se n with
        | error msg => rfl
        | ok bb =>
          cases bb with
          | false => rfl
          | true =>
            dsimp only
            rw [hharv]
      · rw [h1, h2]

/-- C4 (counterexample): with an interest dropdown reporting that no
option matched (`select_interest_filter` returns `False`) and a results
page holding two attendees, `scrape_combination` still harvests and
returns 2 — the combination is not skipped and no zero-result return
happens. -/
theorem c4_filter_not_found_still_scrapes :
    select_interest_filter ⟨Except.ok false, Except.ok ()⟩ "5G" = Except.ok false ∧
    (scrape_combination interestNotFoundScrapeEnv "A" "5G" "" [] []).outcome
      = ScrapeOutcome.finished ∧
    (scrape_combination interestNotFoundScrapeEnv "A" "5G" "" [] []).total = 2 := by
  refine ⟨rfl, ?_, ?_⟩ <;> decide

/-- C4 (amended): a dropdown setter whose page lookup finds no matching
option returns `False` (after logging), but `scrape_combination` discards
both dropdown setters' returned values — its behaviour is identical
whatever boolean they return — so the combination proceeds with the filter
unapplied; the only skip-on-failure check is the one on
`set_search_filter`, which never reports failure. -/
theorem c4_filter_failure_ignored :
    (∀ w v, v ≠ "" → select_interest_filter ⟨Except.ok false, Except.ok w⟩ v
      = Except.ok false) ∧
    (∀ (env : ScrapeEnv) (w : Except String Unit) (b b' : Bool) (n i a : String)
        (fs urls : List String),
      scrape_combination { env with interestDropdown := ⟨Except.ok b, w⟩ } n i a fs urls
        = scrape_combination { env with interestDropdown := ⟨Except.ok b', w⟩ } n i a fs urls) ∧
    (∀ (env : ScrapeEnv) (w : Except String Unit) (b b' : Bool) (n i a : String)
        (fs urls : List String),
      scrape_combination { env with activityDropdown := ⟨Except.ok b, w⟩ } n i a fs urls
        = scrape_combination { env with activityDropdown := ⟨Except.ok b', w⟩ } n i a fs urls) := by
  refine ⟨?_, scrape_interest_value_irrelevant, scrape_activity_value_irrelevant⟩
  intro w v hv
  unfold select_interest_filter
  rw [if_neg hv]
  rfl


/-! ### Claim C3: harvest exceptions never reach the orchestrator handler -/

/-- C3 (counterexample): a page-interaction exception raised during the
second pagination iteration is caught inside `scrape_combination` (outcome
`caught "boom"`, partial count 1); the orchestrator then appends a
Completed entry with count 1 — not an Error entry — and the recovery
ladder never runs. -/
theorem c3_harvest_exception_logged_completed :
    (scrape_combination raisingScrapeEnv "A" "X" "Z" [] []).outcome
      = ScrapeOutcome.caught "boom" ∧
    (scrape_combination raisingScrapeEnv "A" "X" "Z" [] []).total = 1 ∧
    (run_all_combinations
        (fun _ => (⟨none, raisingScrapeEnv, [], ⟨false, false, false, false⟩⟩ : CombEnv))
        ["A"] ["X"] ["Z"] [] []).ledger
      = [startedEntry "A" "X" "Z" (generate_output_filename "A" "X" "Z" []),
         completedEntry "A" "X" "Z" (generate_output_filename "A" "X" "Z" []) 1] ∧
    (run_all_combinations
        (fun _ => (⟨none, raisingScrapeEnv, [], ⟨false, false, false, false⟩⟩ : CombEnv))
        ["A"] ["X"] ["Z"] [] []).recoveries = [] := by
  refine ⟨?_, ?_, ?_, ?_⟩ <;> decide

/-- C3 (amended): whenever the pre-scrape wait succeeds, the loop body
records Started then Completed (with whatever count the internally-caught
scrape returned), never executes the recovery ladder, and never breaks —
whatever exceptions the scrape environment raises during harvesting.  The
Error-entry-plus-recovery path is reserved for exceptions raised in the
orchestrator's own `try` body outside `scrape_combination`. -/
theorem c3_harvest_exceptions_absorbed_by_scraper (se : ScrapeEnv) (fs : List String)
    (r : RungEnv) (ledger : List LedgerEntry) (enum proc recov : List Combo)
    (urls : List String) (c : Combo) :
    (processCombination (fun _ => (⟨none, se, fs, r⟩ : CombEnv))
        ⟨ledger, [], enum, proc, recov, urls⟩ c).2 = false ∧
    (processCombination (fun _ => (⟨none, se, fs, r⟩ : CombEnv))
        ⟨ledger, [], enum, proc, recov, urls⟩ c).1.recoveries = recov ∧
    (processCombination (fun _ => (⟨none, se, fs, r⟩ : CombEnv))
        ⟨ledger, [], enum, proc, recov, urls⟩ c).1.ledger
      = ledger ++
        [startedEntry c.1 c.2.1 c.2.2 (generate_output_filename c.1 c.2.1 c.2.2 fs),
         completedEntry c.1 c.2.1 c.2.2 (generate_output_filename c.1 c.2.1 c.2.2 fs)
           (scrape_combination se c.1 c.2.1 c.2.2 fs urls).total] := by
  unfold processCombination
  rw [if_neg (List.not_mem_nil c)]
  refine ⟨rfl, rfl, ?_⟩
  simp

/-! ### Orchestrator loop lemmas for the benign environment -/

theorem processCombination_benign (st : OrchState) (c : Combo) :
    (processCombination benignEnv st c).1.enumerated = st.enumerated ++ [c] ∧
    (processCombination benignEnv st c).2 = false := by
  unfold processCombination
  by_cases hmem : c ∈ st.completed
  · rw [if_pos hmem]
    exact ⟨rfl, rfl⟩
  · rw [if_neg hmem]
    exact ⟨rfl, rfl⟩

theorem runActivities_benign_enumerated (letter interest : String) :
    ∀ (acts : List String) (st : OrchState),
      (runActivities benignEnv letter interest acts st).enumerated
        = st.enumerated ++ acts.map (fun a => (letter, interest, a)) := by
  intro acts
  induction acts with
  | nil =>
    intro st
    simp [runActivities]
  | cons a rest ih =>
    intro st
    obtain ⟨he, hb⟩ := processCombination_benign st (letter, interest, a)
    rw [runActivities]
    rw [hb]
    simp only [Bool.false_eq_true, ite_false]
    rw [ih, he]
    simp

theorem runInterests_benign_enumerated (letter : String) (activities : List String) :
    ∀ (interests : List String) (st : OrchState),
      (runInterests benignEnv letter activities interests st).enumerated
        = st.enumerated
          ++ interests.flatMap (fun i => activities.map (fun a => (letter, i, a))) := by
  intro interests
  induction interests with
  | nil =>
    intro st
    simp [runInterests]
  | cons i rest ih =>
    intro st
    rw [runInterests]
    rw [ih, runActivities_benign_enumerated]
    simp

theorem runLetters_benign_enumerated (interests activities : List String) :
    ∀ (letters : List String) (st : OrchState),
      (runLetters benignEnv interests activities letters st).enumerated
        = st.enumerated ++ allCombinations letters interests activities := by
  intro letters
  induction letters with
  | nil =>
    intro st
    simp [runLetters, allCombinations]
  | cons l rest ih =>
    intro st
    rw [runLetters]
    rw [ih, runInterests_benign_enumerated]
    simp [allCombinations]

/-! ### Claim C7: nested cross-product order -/

/-- C7: for every configuration of the three input lists, the orchestrator
loop body visits exactly the nested cross-product, name-prefix outermost,
interest middle, company-activity innermost; in particular
`[A,B] × [X,Y] × [Z]` is visited in the order
`(A,X),(A,Y),(B,X),(B,Y)` (with the single activity `Z` throughout). -/
theorem c7_nested_cross_product_order :
    (∀ (letters interests activities : List String) (prior : List LedgerEntry)
        (urls0 : List String),
      (run_all_combinations benignEnv letters interests activities prior urls0).enumerated
        = allCombinations letters interests activities) ∧
    allCombinations ["A", "B"] ["X", "Y"] ["Z"]
      = [("A", "X", "Z"), ("A", "Y", "Z"), ("B", "X", "Z"), ("B", "Y", "Z")] := by
  constructor
  · intro letters interests activities prior urls0
    unfold run_all_combinations
    rw [runLetters_benign_enumerated]
    simp
  · decide

/-! ### Claim C9: startup truncates the ledger -/

/-- C9: at startup the master log is reduced to its header (the model of
opening it in write mode and writing only the header row), so the resume
state loaded immediately afterwards is empty for every prior ledger
content — even though the loader itself would extract Completed rows from
a non-truncated ledger, as the last conjunct shows. -/
theorem c9_ledger_truncated_resume_empty :
    (∀ prior : List LedgerEntry,
      truncateMasterLog prior = [] ∧ loadResumeState prior = []) ∧
    loadCompletedCombinations [completedEntry "A" "X" "-" "out" 3] = [("A", "X", "-")] := by
  exact ⟨fun prior => ⟨rfl, rfl⟩, by decide⟩

/-! ### Claim C1: the resume scenario fails on the code -/

/-- C1 (code evaluation at the failing input): with a prior ledger holding
`(A,X,-) Completed` and configuration `letters=[A,B]`, `interests=[X]`,
`activities=[-]`, the loaded resume state is empty — the startup
truncation erased the ledger — and the run processes both `(A,X,-)` and
`(B,X,-)` instead of skipping `(A,X,-)`. -/
theorem c1_completed_combination_reprocessed :
    loadResumeState [completedEntry "A" "X" "-" "out" 3] = [] ∧
    (run_all_combinations benignEnv ["A", "B"] ["X"] ["-"]
        [completedEntry "A" "X" "-" "out" 3] []).processed
      = [("A", "X", "-"), ("B", "X", "-")] := by
  exact ⟨rfl, by decide⟩

/-! ### Claim C2: recovery exhaustion does not abort the run -/

set_option maxRecDepth 8000 in
/-- C2 (counterexample): the recovery ladder reaches its final rung with
every earlier rung failing and the re-login returning `False`
(`RungEnv` all-false), yet `runRecovery` does not break, and the run goes
on to process the next combination: the ledger shows the first
combination's Error entry followed by the second combination's
Started/Completed pair. -/
theorem c2_relogin_failure_continues_run :
    runRecovery ⟨false, false, false, false⟩ = false ∧
    (run_all_combinations
        (fun c => if c = ("A", "X", "Z1") then reloginFailCombEnv else okCombEnv)
        ["A"] ["X"] ["Z1", "Z2"] [] []).processed
      = [("A", "X", "Z1"), ("A", "X", "Z2")] ∧
    (run_all_combinations
        (fun c => if c = ("A", "X", "Z1") then reloginFailCombEnv else okCombEnv)
        ["A"] ["X"] ["Z1", "Z2"] [] []).ledger
      = [startedEntry "A" "X" "Z1" (generate_output_filename "A" "X" "Z1" []),
         errorEntry "A" "X" "Z1" (generate_output_filename "A" "X" "Z1" []) "boom",
         startedEntry "A" "X" "Z2" (generate_output_filename "A" "X" "Z2" []),
         completedEntry "A" "X" "Z2" (generate_output_filename "A" "X" "Z2" []) 0] := by
  refine ⟨rfl, ?_, ?_⟩ <;> decide

set_option maxRecDepth 8000 in
/-- C2 (amended): the ladder breaks exactly when every earlier rung failed
and the final context-recreation block raises; the value returned by the
re-login never influences the break decision; and even a break only exits
the innermost company-activity loop — the run continues with the next
interest, never aborting entirely. -/
theorem c2_break_only_on_ctx_raise_and_only_inner_loop :
    (∀ r : RungEnv, runRecovery r = true ↔
      (r.navOk = false ∧ r.newPageOk = false ∧ r.ctxRaises = true)) ∧
    (∀ (r : RungEnv) (b : Bool),
      runRecovery ⟨r.navOk, r.newPageOk, r.ctxRaises, b⟩ = runRecovery r) ∧
    (run_all_combinations
        (fun c => if c = ("A", "X", "Z1") then ctxRaiseCombEnv else okCombEnv)
        ["A"] ["X", "Y"] ["Z1", "Z2"] [] []).processed
      = [("A", "X", "Z1"), ("A", "Y", "Z1"), ("A", "Y", "Z2")] := by
  refine ⟨?_, ?_, by decide⟩
  · intro r
    obtain ⟨nv, np, cr, rl⟩ := r
    cases nv <;> cases np <;> cases cr <;> simp [runRecovery]
  · intro r b
    obtain ⟨nv, np, cr, rl⟩ := r
    cases nv <;> cases np <;> cases cr <;> simp [runRecovery]


/-- Non-vacuity witness for `c4_filter_failure_ignored`: its hypothesis is
satisfiable at the concrete interest value `5G`. -/
theorem c4_filter_failure_ignored_witness :
    select_interest_filter ⟨Except.ok false, Except.ok ()⟩ "5G" = Except.ok false :=
  c4_filter_failure_ignored.1 () "5G" (by decide)

end MWC
